import Mathlib

/-!
# mdr: viewport state, render cache and scroll handlers

A shallow embedding of `src/mdr.go`.

* Go's `int` is modelled by `Int`.  Every quantity involved (terminal size,
  number of line breaks of the rendered text, scroll offsets derived from
  them) is bounded by a terminal dimension or by the length of a byte slice,
  so no operation comes near the limits of a 64 bit word.
* Go's `[]byte` and `string` are modelled by lists of byte values.
* The method receiver `*ui` becomes explicit state passing: every method takes
  the state and returns the new state together with its Go result.
* The terminal library (`gocui`) and the Markdown renderer are external.  A
  `Gui` value is what the library answers during one callback: the terminal
  size and the outcome of each library call.  The renderer is a function
  parameter of `ui.render` and `ui.layout`.
-/

namespace Mdr

/-- One byte of a Go `[]byte` or `string`; the values are below 256. -/
abbrev Byte := Nat

/-- The source constant `padding`. -/
def padding : Int := 4

/-- The source constant `renderView`. -/
def renderView : String := "render"

/-- The error values the source tells apart: the quit sentinel `gocui.ErrQuit`,
the "view is new" report `gocui.ErrUnknownView`, and any other error. -/
inductive GuiError where
  | ErrQuit
  | ErrUnknownView
  | other (msg : String)
deriving DecidableEq, Repr

/-- The methods of `ui` that are bound to keys (Go method values such as
`result.up`), as tags. -/
inductive Handler where
  | quit | up | down | pageUp | pageDown | pageTop | pageBottom
deriving DecidableEq, Repr

/-- The keys named in the binding table of `newUi`: a rune or a `gocui` key
constant. -/
inductive Key where
  | rune (c : Char)
  | KeyCtrlC | KeyCtrlP | KeyCtrlN
  | KeyArrowUp | KeyArrowDown
  | KeyPgup | KeyPgdn | KeySpace
deriving DecidableEq, Repr

/-- The modifier used in the binding table of `newUi`. -/
inductive Modifier where
  | ModNone
deriving DecidableEq, Repr

/-- Modelled from the spec: the type `keybinding` is declared outside
`src/mdr.go`; the spec describes an entry of the key-dispatch table as a
`(scope, key, modifier, handler)` tuple, which are the four positional fields
the table of `newUi` fills. -/
structure keybinding where
  viewName : String
  key : Key
  mod : Modifier
  handler : Handler
deriving DecidableEq, Repr

/-- What the terminal library answers during one callback: `g.Size()` and the
error component of `g.SetView`, `g.SetCurrentView` and of registering a key. -/
structure Gui where
  maxX : Int
  maxY : Int
  SetView : String → Int → Int → Int → Int → Option GuiError
  SetCurrentView : String → Option GuiError
  SetKeybinding : String → Key → Modifier → Handler → Option GuiError

/-- A terminal of the given size on which every library call succeeds. -/
def Gui.ofSize (w h : Int) : Gui :=
  { maxX := w
    maxY := h
    SetView := fun _ _ _ _ _ => none
    SetCurrentView := fun _ => none
    SetKeybinding := fun _ _ _ _ => none }

/-- The Markdown renderer `markdown.Render(text, lineWidth, leftPad, opts...)`;
the options argument of the source is a constant. -/
abbrev Renderer := List Byte → Int → Int → List Byte

/-- The arguments of one call of the renderer. -/
structure RenderCall where
  text : List Byte
  lineWidth : Int
  leftPad : Int
deriving DecidableEq, Repr

/-- The source struct `ui`. -/
structure ui where
  keybindings : List keybinding
  raw : List Byte
  width : Int
  XOffset : Int
  YOffset : Int
  lines : Int
deriving DecidableEq, Repr

/-- The source function `min`. -/
def min (a b : Int) : Int := if a < b then a else b

/-- The source function `max`. -/
def max (a b : Int) : Int := if a > b then a else b

/-- The composite literal `&ui{width: -1}` of `newUi`: every other field has
Go's zero value. -/
def ui.zero : ui :=
  { keybindings := []
    raw := []
    width := -1
    XOffset := 0
    YOffset := 0
    lines := 0 }

/-- Modelled from the spec: the method `keybinding.Register` is declared
outside `src/mdr.go`; the spec names the capability it uses,
`registerKey(scope, key, modifier, handler)`, which receives the four fields
of the entry. -/
def keybinding.Register (kb : keybinding) (g : Gui) : Option GuiError :=
  g.SetKeybinding kb.viewName kb.key kb.mod kb.handler

/-- The binding table assigned to `result.keybindings` in `newUi`. -/
def bindingTable : List keybinding :=
  [ { viewName := "", key := Key.KeyCtrlC, mod := Modifier.ModNone, handler := Handler.quit },
    { viewName := renderView, key := Key.rune 'q', mod := Modifier.ModNone, handler := Handler.quit },
    { viewName := renderView, key := Key.rune 'k', mod := Modifier.ModNone, handler := Handler.up },
    { viewName := renderView, key := Key.KeyCtrlP, mod := Modifier.ModNone, handler := Handler.up },
    { viewName := renderView, key := Key.KeyArrowUp, mod := Modifier.ModNone, handler := Handler.up },
    { viewName := renderView, key := Key.rune 'j', mod := Modifier.ModNone, handler := Handler.down },
    { viewName := renderView, key := Key.KeyCtrlN, mod := Modifier.ModNone, handler := Handler.down },
    { viewName := renderView, key := Key.KeyArrowDown, mod := Modifier.ModNone, handler := Handler.down },
    { viewName := renderView, key := Key.KeyPgup, mod := Modifier.ModNone, handler := Handler.pageUp },
    { viewName := renderView, key := Key.rune ',', mod := Modifier.ModNone, handler := Handler.pageUp },
    { viewName := renderView, key := Key.KeyPgdn, mod := Modifier.ModNone, handler := Handler.pageDown },
    { viewName := renderView, key := Key.KeySpace, mod := Modifier.ModNone, handler := Handler.pageDown },
    { viewName := renderView, key := Key.rune 'm', mod := Modifier.ModNone, handler := Handler.pageDown },
    { viewName := renderView, key := Key.rune 'g', mod := Modifier.ModNone, handler := Handler.pageTop },
    { viewName := renderView, key := Key.rune 'G', mod := Modifier.ModNone, handler := Handler.pageBottom } ]

/-- The registration loop of `newUi`: the bindings on which `Register` was
called, in order, and the error that ended the loop, if any. -/
def registerAll (g : Gui) : List keybinding → List keybinding × Option GuiError
  | [] => ([], none)
  | kb :: rest =>
    match kb.Register g with
    | some e => ([kb], some e)
    | none => (kb :: (registerAll g rest).1, (registerAll g rest).2)

/-- The result of `newUi`: the returned pair `(*ui, error)` and the bindings
on which `Register` was called. -/
structure NewUiResult where
  result : Option ui
  err : Option GuiError
  attempted : List keybinding

/-- The source function `newUi`. -/
def newUi (g : Gui) : NewUiResult :=
  let result : ui := ui.zero
  let result : ui := { result with keybindings := bindingTable }
  match registerAll g result.keybindings with
  | (tried, some e) => { result := none, err := some e, attempted := tried }
  | (tried, none) => { result := some result, err := none, attempted := tried }

/-- The source method `ui.setContent`. -/
def ui.setContent (u : ui) (content : List Byte) : ui :=
  { u with raw := content, width := -1 }

/-- The counting loop of `ui.render`: starting from 0, add one for every byte
equal to the line break (byte 10). -/
def countLines (rendered : List Byte) : Int :=
  rendered.foldl (fun n b => if b = 10 then n + 1 else n) 0

/-- The result of `ui.render`: the state with `lines` recomputed, the bytes
returned, and the arguments the renderer was called with. -/
structure RenderResult where
  state : ui
  rendered : List Byte
  call : RenderCall

/-- The source method `ui.render`. -/
def ui.render (md : Renderer) (u : ui) (g : Gui) : RenderResult :=
  let maxX := g.maxX
  let call : RenderCall := { text := u.raw, lineWidth := maxX - 1 - padding, leftPad := padding }
  let rendered := md call.text call.lineWidth call.leftPad
  { state := { u with lines := countLines rendered }
    rendered := rendered
    call := call }

/-- The test `err != nil && !gocui.IsUnknownView(err)` of `ui.layout`. -/
def fatal : Option GuiError → Bool
  | none => false
  | some GuiError.ErrUnknownView => false
  | some _ => true

/-- The result of one layout pass: the new state, the renderer calls made
during the pass, the bytes written to the cleared view (if any), and the
returned error. -/
structure LayoutResult where
  state : ui
  calls : List RenderCall
  written : Option (List Byte)
  err : Option GuiError

/-- The source method `ui.layout`.  The attributes `Frame` and `Wrap` of a new
view are not part of the state; what the pass writes to the view after
`Clear` is returned in `written`. -/
def ui.layout (md : Renderer) (u : ui) (g : Gui) : LayoutResult :=
  let maxX := g.maxX
  let maxY := g.maxY
  let err := g.SetView renderView u.XOffset (-u.YOffset) maxX maxY
  if fatal err then
    { state := u, calls := [], written := none, err := err }
  else if u.raw.length > 0 ∧ u.width ≠ maxX then
    let r := ui.render md { u with width := maxX } g
    { state := r.state, calls := [r.call], written := some r.rendered,
      err := g.SetCurrentView renderView }
  else
    { state := u, calls := [], written := none, err := g.SetCurrentView renderView }

/-- The source method `ui.quit`. -/
def ui.quit (u : ui) (_g : Gui) : ui × Option GuiError :=
  (u, some GuiError.ErrQuit)

/-- The source method `ui.up`. -/
def ui.up (u : ui) (_g : Gui) : ui × Option GuiError :=
  let u := { u with YOffset := u.YOffset - 1 }
  let u := { u with YOffset := max u.YOffset 0 }
  (u, none)

/-- The source method `ui.down`. -/
def ui.down (u : ui) (g : Gui) : ui × Option GuiError :=
  let maxY := g.maxY
  let u := { u with YOffset := u.YOffset + 1 }
  let u := { u with YOffset := min u.YOffset (u.lines - maxY + 1) }
  let u := { u with YOffset := max u.YOffset 0 }
  (u, none)

/-- The source method `ui.pageUp`; Go's `/` on `int` truncates. -/
def ui.pageUp (u : ui) (g : Gui) : ui × Option GuiError :=
  let maxY := g.maxY
  let u := { u with YOffset := u.YOffset - Int.tdiv maxY 2 }
  let u := { u with YOffset := max u.YOffset 0 }
  (u, none)

/-- The source method `ui.pageDown`; Go's `/` on `int` truncates. -/
def ui.pageDown (u : ui) (g : Gui) : ui × Option GuiError :=
  let maxY := g.maxY
  let u := { u with YOffset := u.YOffset + Int.tdiv maxY 2 }
  let u := { u with YOffset := min u.YOffset (u.lines - maxY + 1) }
  let u := { u with YOffset := max u.YOffset 0 }
  (u, none)

/-- The source method `ui.pageTop`. -/
def ui.pageTop (u : ui) (_g : Gui) : ui × Option GuiError :=
  ({ u with YOffset := 0 }, none)

/-- The source method `ui.pageBottom`. -/
def ui.pageBottom (u : ui) (g : Gui) : ui × Option GuiError :=
  let maxY := g.maxY
  ({ u with YOffset := max maxY (u.lines - maxY + 1) }, none)

/-- Calling a bound method value: the handler the library invokes for a key. -/
def Handler.run : Handler → ui → Gui → ui × Option GuiError
  | Handler.quit => ui.quit
  | Handler.up => ui.up
  | Handler.down => ui.down
  | Handler.pageUp => ui.pageUp
  | Handler.pageDown => ui.pageDown
  | Handler.pageTop => ui.pageTop
  | Handler.pageBottom => ui.pageBottom

/-- A sequence of key events on a terminal of fixed size: the handlers run in
order, and the first error a handler returns ends the run. -/
def runHandlers (g : Gui) : ui → List Handler → ui × Option GuiError
  | u, [] => (u, none)
  | u, h :: hs =>
    match h.run u g with
    | (u1, none) => runHandlers g u1 hs
    | (u1, some e) => (u1, some e)

/-- A sequence of layout passes, one `Gui` answer per pass: the state after
the passes and the renderer calls made, in order.  The first pass that
returns an error ends the run. -/
def layoutPasses (md : Renderer) : ui → List Gui → ui × List RenderCall
  | u, [] => (u, [])
  | u, g :: gs =>
    let r := u.layout md g
    match r.err with
    | some _ => (r.state, r.calls)
    | none => ((layoutPasses md r.state gs).1, r.calls ++ (layoutPasses md r.state gs).2)

/-- The spec's `clamp(x, lo, hi) = max(lo, min(x, hi))`, over the library
order of `Int`. -/
def specClamp (x lo hi : Int) : Int := Max.max lo (Min.min x hi)

/-- The spec's scroll maximum `max(0, lineCount - height + 1)`. -/
def scrollMax (lineCount height : Int) : Int := Max.max 0 (lineCount - height + 1)

/-- The number of width changes in a sequence of terminal widths, starting
from the cached width `cached`. -/
def widthChanges (cached : Int) : List Int → Nat
  | [] => 0
  | w :: ws => (if w ≠ cached then 1 else 0) + widthChanges w ws

/-- The identity renderer, used for concrete runs: it returns the text as is. -/
def echoRenderer : Renderer := fun text _ _ => text

/-- The start of a session as `main` runs it: `newUi`, then `setContent`, then
the first layout pass.  The result is `none` when a key fails to register. -/
def openSession (md : Renderer) (content : List Byte) (g : Gui) : Option ui :=
  (newUi g).result.map fun u => ((u.setContent content).layout md g).state

/-- A document of three lines, `a`, `b` and `c`, each ended by a line break. -/
def shortDoc : List Byte := [97, 10, 98, 10, 99, 10]

/-- A document of fifty empty lines. -/
def fiftyLines : List Byte := List.replicate 50 10

/-- The library accepts a layout pass from state `u`: `g.SetView` reports at
most that the view is new, and `g.SetCurrentView` succeeds. -/
def Gui.accepts (g : Gui) (u : ui) : Bool :=
  !fatal (g.SetView renderView u.XOffset (-u.YOffset) g.maxX g.maxY)
    && (g.SetCurrentView renderView).isNone

/-- The layout passes of the spec's example: widths 80, 80, 100, 100, 80 at
height 24, every library call succeeding. -/
def examplePasses : List Gui :=
  [Gui.ofSize 80 24, Gui.ofSize 80 24, Gui.ofSize 100 24, Gui.ofSize 100 24, Gui.ofSize 80 24]

/-- A terminal of size 80 by 24 on which registering the rune `k` fails and
every other library call succeeds. -/
def refusingGui : Gui :=
  { maxX := 80
    maxY := 24
    SetView := fun _ _ _ _ _ => none
    SetCurrentView := fun _ => none
    SetKeybinding := fun _ k _ _ =>
      if k = Key.rune 'k' then some (GuiError.other "key refused") else none }

/-- The vertical offset of a state lies in the spec's interval
`[0, max(0, lineCount - height + 1)]` for the height of the terminal `g`. -/
abbrev ui.inRange (u : ui) (g : Gui) : Prop :=
  0 ≤ u.YOffset ∧ u.YOffset ≤ scrollMax u.lines g.maxY

/-! ## Helper lemmas -/

set_option maxRecDepth 8000

/-- The source function `min` is the minimum of the order on `Int`. -/
theorem min_eq_lib (a b : Int) : min a b = Min.min a b := by
  unfold min; split <;> omega

/-- The source function `max` is the maximum of the order on `Int`. -/
theorem max_eq_lib (a b : Int) : max a b = Max.max a b := by
  unfold max; split <;> omega

/-- For a height that is not negative, Go's truncating `maxY / 2` is the
floor division of `Int`. -/
theorem half_eq (h : Int) (hh : 0 ≤ h) : Int.tdiv h 2 = h / 2 :=
  Int.tdiv_eq_ediv hh (by decide)

/-- The offset `ui.up` leaves. -/
theorem up_YOffset (u : ui) (g : Gui) :
    (u.up g).1.YOffset = Max.max (u.YOffset - 1) 0 := by
  simp [ui.up, max_eq_lib]

/-- The offset `ui.down` leaves. -/
theorem down_YOffset (u : ui) (g : Gui) :
    (u.down g).1.YOffset = Max.max (Min.min (u.YOffset + 1) (u.lines - g.maxY + 1)) 0 := by
  simp [ui.down, max_eq_lib, min_eq_lib]

/-- The offset `ui.pageUp` leaves. -/
theorem pageUp_YOffset (u : ui) (g : Gui) :
    (u.pageUp g).1.YOffset = Max.max (u.YOffset - Int.tdiv g.maxY 2) 0 := by
  simp [ui.pageUp, max_eq_lib]

/-- The offset `ui.pageDown` leaves. -/
theorem pageDown_YOffset (u : ui) (g : Gui) :
    (u.pageDown g).1.YOffset
      = Max.max (Min.min (u.YOffset + Int.tdiv g.maxY 2) (u.lines - g.maxY + 1)) 0 := by
  simp [ui.pageDown, max_eq_lib, min_eq_lib]

/-- The offset `ui.pageTop` leaves. -/
theorem pageTop_YOffset (u : ui) (g : Gui) : (u.pageTop g).1.YOffset = 0 := by
  simp [ui.pageTop]

/-- The offset `ui.pageBottom` leaves. -/
theorem pageBottom_YOffset (u : ui) (g : Gui) :
    (u.pageBottom g).1.YOffset = Max.max g.maxY (u.lines - g.maxY + 1) := by
  simp [ui.pageBottom, max_eq_lib]

/-- Writing a field with the value it already has changes nothing. -/
theorem set_YOffset_self (u : ui) (y : Int) (h : u.YOffset = y) :
    { u with YOffset := y } = u := by
  cases u; simp_all

/-- Below the bottom boundary `down` adds exactly one to the offset. -/
theorem down_below_bottom (u : ui) (g : Gui)
    (h0 : 0 ≤ u.YOffset) (h1 : u.YOffset + 1 ≤ u.lines - g.maxY + 1) :
    (u.down g).1 = { u with YOffset := u.YOffset + 1 } := by
  have hmin : min (u.YOffset + 1) (u.lines - g.maxY + 1) = u.YOffset + 1 := by
    rw [min_eq_lib]; omega
  have hmax : max (u.YOffset + 1) 0 = u.YOffset + 1 := by
    rw [max_eq_lib]; omega
  simp [ui.down, hmin, hmax]

/-- Running `n` times `down` while the bottom boundary is not passed adds `n`
to the offset. -/
theorem runHandlers_down_replicate (g : Gui) (n : Nat) :
    ∀ u : ui, 0 ≤ u.YOffset → u.YOffset + n ≤ u.lines - g.maxY + 1 →
      runHandlers g u (List.replicate n Handler.down)
        = ({ u with YOffset := u.YOffset + n }, none) := by
  induction n with
  | zero =>
    intro u _ _
    simp [runHandlers, set_YOffset_self]
  | succ n ih =>
    intro u h0 h1
    have hstep : Handler.down.run u g = ({ u with YOffset := u.YOffset + 1 }, none) := by
      have hd := down_below_bottom u g h0 (by omega)
      have h2 : (u.down g).2 = none := rfl
      exact Prod.ext hd h2
    rw [List.replicate_succ, runHandlers, hstep]
    have := ih { u with YOffset := u.YOffset + 1 } (by simp; omega) (by simp; omega)
    simp only [this]
    simp
    omega

/-- A layout pass changes neither the raw content nor the offsets nor the key
table. -/
theorem layout_frame (md : Renderer) (u : ui) (g : Gui) :
    (u.layout md g).state.raw = u.raw ∧
    (u.layout md g).state.XOffset = u.XOffset ∧
    (u.layout md g).state.YOffset = u.YOffset ∧
    (u.layout md g).state.keybindings = u.keybindings := by
  unfold ui.layout ui.render
  simp only
  split_ifs <;> simp

/-- Whether the library accepts a pass depends on the offsets only. -/
theorem accepts_congr (g : Gui) (u v : ui)
    (hx : v.XOffset = u.XOffset) (hy : v.YOffset = u.YOffset) :
    g.accepts v = g.accepts u := by
  simp [Gui.accepts, hx, hy]

/-- An accepted layout pass of a non-empty document returns no error, calls
the renderer once when the width differs from the cached one and not at all
otherwise, and leaves the width of the pass in the cache. -/
theorem layout_accepted (md : Renderer) (u : ui) (g : Gui)
    (hraw : u.raw ≠ []) (hg : g.accepts u = true) :
    (u.layout md g).err = none ∧
    (u.layout md g).calls.length = (if g.maxX ≠ u.width then 1 else 0) ∧
    (u.layout md g).state.width = g.maxX := by
  have hlen : 0 < u.raw.length := List.length_pos.mpr hraw
  simp only [Gui.accepts, Bool.and_eq_true, Bool.not_eq_true', Option.isNone_iff_eq_none] at hg
  obtain ⟨hf, hc⟩ := hg
  unfold ui.layout ui.render
  simp only [hf, hc]
  by_cases hw : u.width = g.maxX
  · simp [hw]
  · have hw2 : g.maxX ≠ u.width := fun h => hw h.symm
    simp [hw, hw2, hlen]

/-- Over accepted passes of a non-empty document, the renderer is called once
per width change. -/
theorem layoutPasses_accepted (md : Renderer) (gs : List Gui) :
    ∀ u : ui, u.raw ≠ [] → (∀ g ∈ gs, g.accepts u = true) →
      (layoutPasses md u gs).2.length = widthChanges u.width (gs.map Gui.maxX) := by
  induction gs with
  | nil => intro u _ _; simp [layoutPasses, widthChanges]
  | cons g gs ih =>
    intro u hraw hall
    have hg : g.accepts u = true := hall g (List.mem_cons_self g gs)
    obtain ⟨herr, hcalls, hwidth⟩ := layout_accepted md u g hraw hg
    obtain ⟨hr, hx, hy, _⟩ := layout_frame md u g
    have hrest := ih (u.layout md g).state (by rw [hr]; exact hraw) (by
      intro g1 hg1
      rw [accepts_congr g1 u _ hx hy]
      exact hall g1 (List.mem_cons_of_mem g hg1))
    simp only [layoutPasses, herr, List.length_append, List.map_cons, widthChanges, hcalls,
      hrest, hwidth]

/-- The counting loop started from any value adds the number of line breaks. -/
theorem foldl_count (rendered : List Byte) (n : Int) :
    rendered.foldl (fun n b => if b = 10 then n + 1 else n) n
      = n + (rendered.count 10 : Nat) := by
  induction rendered generalizing n with
  | nil => simp
  | cons b bs ih =>
    rw [List.foldl_cons, ih]
    by_cases hb : b = 10
    · subst hb
      simp only [if_true, List.count_cons_self, Nat.cast_add, Nat.cast_one]
      omega
    · have hb2 : ¬ (b == 10) = true := by simpa using hb
      simp [hb, List.count_cons, hb2]

/-- The counting loop of `ui.render` counts the line breaks of its input. -/
theorem countLines_eq_count (rendered : List Byte) :
    countLines rendered = (rendered.count 10 : Nat) := by
  rw [countLines, foldl_count]; simp

/-- A key handler changes at most the vertical offset. -/
theorem handler_frame (h : Handler) (u : ui) (g : Gui) :
    (h.run u g).1 = { u with YOffset := (h.run u g).1.YOffset } := by
  cases h <;> rfl

/-- When every binding registers, the loop of `newUi` tries all of them in
order and ends without error. -/
theorem registerAll_ok (g : Gui) (kbs : List keybinding)
    (h : ∀ kb ∈ kbs, kb.Register g = none) : registerAll g kbs = (kbs, none) := by
  induction kbs with
  | nil => rfl
  | cons kb rest ih =>
    have hkb : kb.Register g = none := h kb (List.mem_cons_self kb rest)
    have hrest := ih (fun x hx => h x (List.mem_cons_of_mem kb hx))
    simp [registerAll, hkb, hrest]

/-- The loop of `newUi` stops at the first binding that fails to register: it
has tried the bindings before it and that one, and returns its error. -/
theorem registerAll_fail (g : Gui) (pre : List keybinding) (kb : keybinding)
    (post : List keybinding) (e : GuiError)
    (hpre : ∀ x ∈ pre, x.Register g = none) (hkb : kb.Register g = some e) :
    registerAll g (pre ++ kb :: post) = (pre ++ [kb], some e) := by
  induction pre with
  | nil => simp [registerAll, hkb]
  | cons x rest ih =>
    have hx : x.Register g = none := hpre x (List.mem_cons_self x rest)
    have hrest := ih (fun y hy => hpre y (List.mem_cons_of_mem x hy))
    simp [registerAll, hx, hrest]

/-- The loop of `newUi` ends without error exactly when every binding
registers. -/
theorem registerAll_none_iff (g : Gui) (kbs : List keybinding) :
    (registerAll g kbs).2 = none ↔ ∀ kb ∈ kbs, kb.Register g = none := by
  induction kbs with
  | nil => simp [registerAll]
  | cons kb rest ih =>
    cases hkb : kb.Register g with
    | none => simp [registerAll, hkb, ih]
    | some e => simp [registerAll, hkb]

/-- The pair returned by `newUi`, read off the outcome of its loop. -/
theorem newUi_of_registerAll (g : Gui) :
    ((newUi g).result.isSome ↔ (registerAll g bindingTable).2 = none) ∧
    (newUi g).err = (registerAll g bindingTable).2 ∧
    (newUi g).attempted = (registerAll g bindingTable).1 ∧
    ((newUi g).result = none ∨
      (newUi g).result = some { ui.zero with keybindings := bindingTable }) := by
  unfold newUi
  simp only
  rcases hreg : registerAll g ({ ui.zero with keybindings := bindingTable } : ui).keybindings
    with ⟨tried, _ | e⟩
  · have h2 : registerAll g bindingTable = (tried, none) := hreg
    simp [h2]
  · have h2 : registerAll g bindingTable = (tried, some e) := hreg
    simp [h2]

/-- An accepted layout pass of a non-empty document whose cache holds the
unset value calls the renderer when the terminal is at least one column wide. -/
theorem unset_cache_renders (md : Renderer) (v : ui) (g : Gui)
    (hraw : v.raw ≠ []) (hunset : v.width = -1) (hw : 1 ≤ g.maxX)
    (hg : g.accepts v = true) : (v.layout md g).calls ≠ [] := by
  obtain ⟨_, hc, _⟩ := layout_accepted md v g hraw hg
  have hne : g.maxX ≠ v.width := by omega
  rw [← List.length_pos, hc]
  simp [hne]

/-- On a terminal of height at least 0, every key handler other than
`pageBottom` keeps an offset that is in the interval inside it. -/
theorem handler_keeps_range (h : Handler) (u : ui) (g : Gui)
    (hh : 0 ≤ g.maxY) (hne : h ≠ Handler.pageBottom) (hin : u.inRange g) :
    (h.run u g).1.inRange g := by
  have hd : 0 ≤ Int.tdiv g.maxY 2 := Int.tdiv_nonneg hh (by decide)
  have hl : (h.run u g).1.lines = u.lines := by rw [handler_frame h u g]
  obtain ⟨h0, h1⟩ := hin
  unfold ui.inRange at *
  rw [hl]
  unfold scrollMax at *
  cases h with
  | quit => exact ⟨h0, h1⟩
  | up =>
    have hy := up_YOffset u g
    change (Handler.up.run u g).1.YOffset = _ at hy
    rw [hy]; omega
  | down =>
    have hy := down_YOffset u g
    change (Handler.down.run u g).1.YOffset = _ at hy
    rw [hy]; omega
  | pageUp =>
    have hy := pageUp_YOffset u g
    change (Handler.pageUp.run u g).1.YOffset = _ at hy
    rw [hy]; omega
  | pageDown =>
    have hy := pageDown_YOffset u g
    change (Handler.pageDown.run u g).1.YOffset = _ at hy
    rw [hy]; omega
  | pageTop =>
    have hy := pageTop_YOffset u g
    change (Handler.pageTop.run u g).1.YOffset = _ at hy
    rw [hy]; omega
  | pageBottom => exact absurd rfl hne

/-- A run of key handlers without `pageBottom` keeps an offset that is in the
interval inside it. -/
theorem runHandlers_keeps_range (g : Gui) (hh : 0 ≤ g.maxY) (hs : List Handler) :
    ∀ u : ui, Handler.pageBottom ∉ hs → u.inRange g → (runHandlers g u hs).1.inRange g := by
  induction hs with
  | nil => intro u _ hin; exact hin
  | cons h hs ih =>
    intro u hno hin
    have hne : h ≠ Handler.pageBottom := fun e => hno (e ▸ List.mem_cons_self h hs)
    have hno2 : Handler.pageBottom ∉ hs := fun m => hno (List.mem_cons_of_mem h m)
    have hstep := handler_keeps_range h u g hh hne hin
    rw [runHandlers]
    rcases hrun : h.run u g with ⟨u1, _ | e⟩
    · rw [hrun] at hstep
      exact ih u1 hno2 hstep
    · rw [hrun] at hstep
      exact hstep

/-! ## Scroll handlers -/

/-- C4: for every offset, line count and height at least 1, the four step
handlers compute the tabled transitions: `up` gives `max(0, offset - 1)`,
`pageUp` gives `max(0, offset - height/2)`, `down` gives
`clamp(offset + 1, 0, lineCount - height + 1)` and `pageDown` gives
`clamp(offset + height/2, 0, lineCount - height + 1)`, with
`clamp(x, lo, hi) = max(lo, min(x, hi))` and `/` the integer division. -/
theorem step_handlers_tabled (u : ui) (g : Gui) (hh : 1 ≤ g.maxY) :
    (u.up g).1.YOffset = Max.max 0 (u.YOffset - 1) ∧
    (u.pageUp g).1.YOffset = Max.max 0 (u.YOffset - g.maxY / 2) ∧
    (u.down g).1.YOffset = specClamp (u.YOffset + 1) 0 (u.lines - g.maxY + 1) ∧
    (u.pageDown g).1.YOffset
      = specClamp (u.YOffset + g.maxY / 2) 0 (u.lines - g.maxY + 1) := by
  have hd : Int.tdiv g.maxY 2 = g.maxY / 2 := half_eq g.maxY (by omega)
  refine ⟨?_, ?_, ?_, ?_⟩
  · rw [up_YOffset, max_comm]
  · rw [pageUp_YOffset, hd, max_comm]
  · rw [down_YOffset, specClamp, max_comm]
  · rw [pageDown_YOffset, hd, specClamp, max_comm]

/-- Witness of `step_handlers_tabled`: offset 7, 50 lines, height 20. -/
theorem step_handlers_tabled_witness :
    (1 : Int) ≤ (Gui.ofSize 80 20).maxY ∧
    (({ ui.zero with lines := 50, YOffset := 7 } : ui).up (Gui.ofSize 80 20)).1.YOffset
      = Max.max 0 (7 - 1) ∧
    (({ ui.zero with lines := 50, YOffset := 7 } : ui).pageUp (Gui.ofSize 80 20)).1.YOffset
      = Max.max 0 (7 - 20 / 2) ∧
    (({ ui.zero with lines := 50, YOffset := 7 } : ui).down (Gui.ofSize 80 20)).1.YOffset
      = specClamp (7 + 1) 0 (50 - 20 + 1) ∧
    (({ ui.zero with lines := 50, YOffset := 7 } : ui).pageDown (Gui.ofSize 80 20)).1.YOffset
      = specClamp (7 + 20 / 2) 0 (50 - 20 + 1) :=
  ⟨by decide,
   step_handlers_tabled { ui.zero with lines := 50, YOffset := 7 } (Gui.ofSize 80 20) (by decide)⟩

/-- C5: for every prior offset, line count and height, `pageBottom` sets the
vertical offset to exactly `max(height, lineCount - height + 1)` and `pageTop`
sets it to exactly 0; neither result depends on the prior offset. -/
theorem jump_handlers_literal (u : ui) (g : Gui) (y : Int) :
    ((({ u with YOffset := y } : ui).pageBottom g).1.YOffset
      = Max.max g.maxY (u.lines - g.maxY + 1)) ∧
    ((({ u with YOffset := y } : ui).pageTop g).1.YOffset = 0) := by
  constructor
  · rw [pageBottom_YOffset]
  · rw [pageTop_YOffset]

/-- C6: with 3 rendered lines on a terminal of height 24 (content shorter than
the viewport) and offset 0, `down` and `pageDown` leave the vertical offset 0,
but `pageBottom` sets it to 24. -/
theorem pageBottom_short_content :
    (openSession echoRenderer shortDoc (Gui.ofSize 80 24)).map
      (fun u => (u.lines, u.YOffset,
        (u.down (Gui.ofSize 80 24)).1.YOffset,
        (u.pageDown (Gui.ofSize 80 24)).1.YOffset,
        (u.pageBottom (Gui.ofSize 80 24)).1.YOffset))
      = some (3, 0, 0, 0, 24) := by
  decide

/-- C7: for every line count and height at least 1, the step handlers and
`pageTop` are no-ops at the boundaries: `up`, `pageUp` and `pageTop` applied
at offset 0 return the state unchanged, and `down` and `pageDown` applied at
offset `max(0, lineCount - height + 1)` return the state unchanged. -/
theorem step_handlers_noop_at_boundaries (u : ui) (g : Gui) (hh : 1 ≤ g.maxY) :
    (({ u with YOffset := 0 } : ui).up g).1 = { u with YOffset := 0 } ∧
    (({ u with YOffset := 0 } : ui).pageUp g).1 = { u with YOffset := 0 } ∧
    (({ u with YOffset := 0 } : ui).pageTop g).1 = { u with YOffset := 0 } ∧
    (({ u with YOffset := scrollMax u.lines g.maxY } : ui).down g).1
      = { u with YOffset := scrollMax u.lines g.maxY } ∧
    (({ u with YOffset := scrollMax u.lines g.maxY } : ui).pageDown g).1
      = { u with YOffset := scrollMax u.lines g.maxY } := by
  have hd : 0 ≤ Int.tdiv g.maxY 2 := Int.tdiv_nonneg (by omega) (by decide)
  refine ⟨?_, ?_, ?_, ?_, ?_⟩
  · simp [ui.up, max_eq_lib]
  · simp [ui.pageUp, max_eq_lib, hd]
  · simp [ui.pageTop]
  · simp only [ui.down, max_eq_lib, min_eq_lib, scrollMax]
    congr 1
    omega
  · simp only [ui.pageDown, max_eq_lib, min_eq_lib, scrollMax]
    congr 1
    omega

/-- Witness of `step_handlers_noop_at_boundaries`: 50 lines, height 20, where
the bottom boundary is offset 31. -/
theorem step_handlers_noop_at_boundaries_witness :
    (1 : Int) ≤ (Gui.ofSize 80 20).maxY ∧
    (({ ui.zero with lines := 50, YOffset := 0 } : ui).up (Gui.ofSize 80 20)).1.YOffset = 0 ∧
    (({ ui.zero with lines := 50, YOffset := 31 } : ui).down (Gui.ofSize 80 20)).1.YOffset = 31 :=
  have h := step_handlers_noop_at_boundaries { ui.zero with lines := 50 } (Gui.ofSize 80 20)
    (by decide)
  ⟨by decide, congrArg ui.YOffset h.1, congrArg ui.YOffset h.2.2.2.1⟩

/-- C8: with 3 rendered lines on a terminal of height 24 the scroll maximum
`max(0, lineCount - height + 1)` is 0 and the offset is already there, yet
`pageBottom` moves the offset to 24. -/
theorem pageBottom_moves_at_maximum :
    (openSession echoRenderer shortDoc (Gui.ofSize 80 24)).map
      (fun u => (decide (u.YOffset = scrollMax u.lines 24),
        decide ((u.pageBottom (Gui.ofSize 80 24)).1.YOffset = u.YOffset),
        (u.pageBottom (Gui.ofSize 80 24)).1.YOffset))
      = some (true, false, 24) := by
  decide

/-- C9: for every offset with `0 ≤ offset < lineCount - height + 1`, `down`
followed by `up` returns the state, and so the vertical offset, to what it
was. -/
theorem down_then_up_returns (u : ui) (g : Gui)
    (h0 : 0 ≤ u.YOffset) (h1 : u.YOffset < u.lines - g.maxY + 1) :
    (((u.down g).1).up g).1 = u := by
  have hy : (((u.down g).1).up g).1.YOffset = u.YOffset := by
    rw [up_YOffset, down_YOffset]; omega
  have hrest : (((u.down g).1).up g).1 = { u with YOffset := (((u.down g).1).up g).1.YOffset } := by
    simp [ui.up, ui.down]
  rw [hrest]
  exact set_YOffset_self u _ hy.symm

/-- Witness of `down_then_up_returns`: offset 7 of 50 lines at height 20. -/
theorem down_then_up_returns_witness :
    (0 : Int) ≤ 7 ∧ (7 : Int) < 50 - 20 + 1 ∧
    (((({ ui.zero with lines := 50, YOffset := 7 } : ui).down (Gui.ofSize 80 20)).1).up
      (Gui.ofSize 80 20)).1 = { ui.zero with lines := 50, YOffset := 7 } :=
  ⟨by decide, by decide,
   down_then_up_returns { ui.zero with lines := 50, YOffset := 7 } (Gui.ofSize 80 20)
     (by decide) (by decide)⟩

/-- C10: with 50 rendered lines, height 20 and offset 0, the keys
`pageBottom`, `pageUp`, `pageTop` and then 25 times `down` end at offset 25,
not 19. -/
theorem scenario_ends_at_25_not_19 :
    (openSession echoRenderer fiftyLines (Gui.ofSize 80 20)).map
      (fun u => (u.lines, u.YOffset,
        (runHandlers (Gui.ofSize 80 20) u
          ([Handler.pageBottom, Handler.pageUp, Handler.pageTop]
            ++ List.replicate 25 Handler.down)).1.YOffset))
      = some (50, 0, 25) ∧
    (openSession echoRenderer fiftyLines (Gui.ofSize 80 20)).map
      (fun u => (runHandlers (Gui.ofSize 80 20) u
          ([Handler.pageBottom, Handler.pageUp, Handler.pageTop]
            ++ List.replicate 25 Handler.down)).1.YOffset)
      ≠ some 19 := by
  decide

/-- C10, amended: from any state with 50 rendered lines and offset 0, on any
terminal of height 20, `pageBottom` gives 31, then `pageUp` gives 21, then
`pageTop` gives 0, then 25 times `down` gives 25. -/
theorem scenario_50_lines_height_20 (u : ui) (g : Gui) :
    (runHandlers { g with maxY := 20 } { u with lines := 50, YOffset := 0 }
      [Handler.pageBottom]).1.YOffset = 31 ∧
    (runHandlers { g with maxY := 20 } { u with lines := 50, YOffset := 0 }
      [Handler.pageBottom, Handler.pageUp]).1.YOffset = 21 ∧
    (runHandlers { g with maxY := 20 } { u with lines := 50, YOffset := 0 }
      [Handler.pageBottom, Handler.pageUp, Handler.pageTop]).1.YOffset = 0 ∧
    (runHandlers { g with maxY := 20 } { u with lines := 50, YOffset := 0 }
      ([Handler.pageBottom, Handler.pageUp, Handler.pageTop]
        ++ List.replicate 25 Handler.down)).1.YOffset = 25 := by
  refine ⟨rfl, rfl, rfl, ?_⟩
  have h3 : ∀ hs, runHandlers { g with maxY := 20 } { u with lines := 50, YOffset := 0 }
      ([Handler.pageBottom, Handler.pageUp, Handler.pageTop] ++ hs)
      = runHandlers { g with maxY := 20 } { u with lines := 50, YOffset := 0 } hs := by
    intro hs
    simp [runHandlers, Handler.run, ui.pageBottom, ui.pageUp, ui.pageTop]
  rw [h3, runHandlers_down_replicate _ 25 _ (by simp) (by simp)]
  simp

/-- C1: with 3 rendered lines on a terminal of height 24 the interval
`[0, max(0, lineCount - height + 1)]` is `[0, 0]`; from offset 0 the single
transition `pageBottom` ends at offset 24, outside of it. -/
theorem pageBottom_leaves_interval :
    (openSession echoRenderer shortDoc (Gui.ofSize 80 24)).map
      (fun u => (u.YOffset, scrollMax u.lines 24,
        (runHandlers (Gui.ofSize 80 24) u [Handler.pageBottom]).1.YOffset))
      = some (0, 0, 24) := by
  decide

/-! ## Layout and the render cache -/

/-- C2: for a non-empty document and layout passes the library accepts, a pass
calls the renderer if and only if its width differs from the cached width, and
afterwards the cached width is the width of the pass; over a sequence of
passes the number of renderer calls is the number of width changes, the first
pass counting when the cache holds the unset value -1 and the width is at
least 1; a pass at the cached width (a change of height only) never calls the
renderer. -/
theorem layout_renders_iff_width_differs (md : Renderer) (u : ui) (g : Gui) (gs : List Gui)
    (hraw : u.raw ≠ []) (hg : g.accepts u = true) (hw : 1 ≤ g.maxX)
    (hgs : ∀ p ∈ gs, p.accepts u = true) :
    ((u.layout md g).calls ≠ [] ↔ g.maxX ≠ u.width) ∧
    (u.layout md g).state.width = g.maxX ∧
    (layoutPasses md u gs).2.length = widthChanges u.width (gs.map Gui.maxX) ∧
    (({ u with width := -1 } : ui).layout md g).calls ≠ [] ∧
    (∀ h : Int, (u.layout md { g with maxX := u.width, maxY := h }).calls = []) := by
  obtain ⟨_, hcalls, hwidth⟩ := layout_accepted md u g hraw hg
  refine ⟨?_, hwidth, layoutPasses_accepted md gs u hraw hgs, ?_, ?_⟩
  · rw [← List.length_pos, hcalls]
    by_cases h : g.maxX = u.width <;> simp [h]
  · have hg1 : g.accepts { u with width := -1 } = true := by
      exact (accepts_congr g u { u with width := -1 } rfl rfl).trans hg
    obtain ⟨_, hc, _⟩ := layout_accepted md { u with width := -1 } g hraw hg1
    have hne : g.maxX ≠ -1 := by omega
    rw [← List.length_pos, hc]
    simp [hne]
  · intro h
    unfold ui.layout
    simp only
    split_ifs <;> simp_all

/-- Witness of `layout_renders_iff_width_differs`: a fresh state holding a
three line document, laid out at widths 80, 80, 100, 100, 80, calls the
renderer exactly 3 times. -/
theorem layout_renders_iff_width_differs_witness :
    (ui.zero.setContent shortDoc).raw ≠ [] ∧
    (Gui.ofSize 80 24).accepts (ui.zero.setContent shortDoc) = true ∧
    (1 : Int) ≤ (Gui.ofSize 80 24).maxX ∧
    (∀ p ∈ examplePasses, p.accepts (ui.zero.setContent shortDoc) = true) ∧
    (layoutPasses echoRenderer (ui.zero.setContent shortDoc) examplePasses).2.length = 3 :=
  have hall : ∀ p ∈ examplePasses, p.accepts (ui.zero.setContent shortDoc) = true := by
    intro p hp
    simp only [examplePasses, List.mem_cons, List.mem_singleton, List.not_mem_nil, or_false] at hp
    rcases hp with rfl | rfl | rfl | rfl | rfl <;> rfl
  ⟨by decide, by decide, by decide, hall,
   (layout_renders_iff_width_differs echoRenderer (ui.zero.setContent shortDoc)
      (Gui.ofSize 80 24) examplePasses (by decide) (by decide) (by decide) hall).2.2.1.trans
      (by decide)⟩

/-- C3: a session of 50 rendered lines at 80 by 20 scrolled down 10 lines has
offset 10, inside `[0, 31]`; a layout pass at 80 by 45 (a change of height
only) does not call the renderer and leaves the offset at 10, above the new
maximum `max(0, 50 - 45 + 1) = 6`. -/
theorem layout_does_not_clamp :
    (openSession echoRenderer fiftyLines (Gui.ofSize 80 20)).map
      (fun u =>
        (((runHandlers (Gui.ofSize 80 20) u (List.replicate 10 Handler.down)).1.layout
            echoRenderer (Gui.ofSize 80 45)).calls.length,
         ((runHandlers (Gui.ofSize 80 20) u (List.replicate 10 Handler.down)).1.layout
            echoRenderer (Gui.ofSize 80 45)).state.lines,
         ((runHandlers (Gui.ofSize 80 20) u (List.replicate 10 Handler.down)).1.layout
            echoRenderer (Gui.ofSize 80 45)).state.YOffset,
         scrollMax 50 45,
         decide (((runHandlers (Gui.ofSize 80 20) u (List.replicate 10 Handler.down)).1.layout
            echoRenderer (Gui.ofSize 80 45)).state.YOffset ≤ scrollMax 50 45)))
      = some (0, 50, 10, 6, false) := by
  decide

/-- C3, amended: a layout pass, whether it re-renders or not, leaves the
vertical offset as it was; the next `down` or `pageDown` puts it into
`[0, max(0, lineCount - height + 1)]` for the height and line count of that
moment. -/
theorem layout_keeps_offset (md : Renderer) (u : ui) (g : Gui) :
    (u.layout md g).state.YOffset = u.YOffset ∧
    (0 ≤ (((u.layout md g).state).down g).1.YOffset ∧
      (((u.layout md g).state).down g).1.YOffset
        ≤ scrollMax (u.layout md g).state.lines g.maxY) ∧
    (0 ≤ (((u.layout md g).state).pageDown g).1.YOffset ∧
      (((u.layout md g).state).pageDown g).1.YOffset
        ≤ scrollMax (u.layout md g).state.lines g.maxY) := by
  refine ⟨(layout_frame md u g).2.2.1, ?_, ?_⟩
  · rw [down_YOffset, scrollMax]; omega
  · rw [pageDown_YOffset, scrollMax]; omega

/-- C11: a session on the empty document at 80 by 24 never calls the renderer
and has 0 rendered lines and both offsets 0; `up`, `down`, `pageUp`,
`pageDown` and `pageTop` leave the vertical offset 0, but `pageBottom` moves
it to 24. -/
theorem pageBottom_empty_document :
    (layoutPasses echoRenderer (ui.zero.setContent []) examplePasses).2.length = 0 ∧
    (openSession echoRenderer [] (Gui.ofSize 80 24)).map
      (fun u => (u.lines, u.XOffset, u.YOffset,
        (runHandlers (Gui.ofSize 80 24) u
          [Handler.up, Handler.down, Handler.pageUp, Handler.pageDown, Handler.pageTop]).1.YOffset,
        (runHandlers (Gui.ofSize 80 24) u [Handler.pageBottom]).1.YOffset))
      = some (0, 0, 0, 0, 24) := by
  decide

/-- C12: laying out a three line document on a terminal of width 80 calls the
renderer with line width 75, not 76. -/
theorem render_width_is_75_not_76 :
    ((ui.zero.setContent shortDoc).layout echoRenderer (Gui.ofSize 80 24)).calls
      = [{ text := shortDoc, lineWidth := 75, leftPad := 4 }] ∧
    ((ui.zero.setContent shortDoc).layout echoRenderer (Gui.ofSize 80 24)).calls
      ≠ [{ text := shortDoc, lineWidth := 80 - 4, leftPad := 4 }] := by
  decide

/-- C12, amended: whenever a layout pass at terminal width `currentWidth`
calls the renderer, it does so once, with the raw content unchanged, the line
width `currentWidth - 1 - padding = currentWidth - 5` and the left padding
`padding = 4`. -/
theorem render_arguments (md : Renderer) (u : ui) (g : Gui) :
    padding = 4 ∧
    ((u.layout md g).calls = [] ∨
      (u.layout md g).calls = [{ text := u.raw, lineWidth := g.maxX - 5, leftPad := 4 }]) ∧
    (u.render md g).call = { text := u.raw, lineWidth := g.maxX - 5, leftPad := 4 } ∧
    (u.render md g).rendered = md u.raw (g.maxX - 5) 4 := by
  have h5 : g.maxX - 1 - padding = g.maxX - 5 := by simp only [padding]; omega
  refine ⟨rfl, ?_, ?_, ?_⟩
  · unfold ui.layout ui.render
    simp only
    split_ifs
    · left; rfl
    · right; simp only [h5]; rfl
    · left; rfl
  · simp only [ui.render, h5]; rfl
  · simp only [ui.render, h5]; rfl

/-- C13: for every state and every terminal size, `quit` returns the quit
sentinel `ErrQuit` and the state unchanged, and `up`, `down`, `pageUp`,
`pageDown`, `pageTop` and `pageBottom` return no error, also at height 0. -/
theorem quit_sentinel_and_total_handlers (u : ui) (g : Gui) :
    u.quit g = (u, some GuiError.ErrQuit) ∧
    Handler.quit.run u g = (u, some GuiError.ErrQuit) ∧
    (u.up g).2 = none ∧ (u.down g).2 = none ∧
    (u.pageUp g).2 = none ∧ (u.pageDown g).2 = none ∧
    (u.pageTop g).2 = none ∧ (u.pageBottom g).2 = none ∧
    (u.pageUp { g with maxY := 0 }).2 = none ∧ (u.pageDown { g with maxY := 0 }).2 = none ∧
    (u.down { g with maxY := 0 }).2 = none ∧ (u.pageBottom { g with maxY := 0 }).2 = none :=
  ⟨rfl, rfl, rfl, rfl, rfl, rfl, rfl, rfl, rfl, rfl, rfl, rfl⟩

/-- C15: for every state and terminal size, a layout pass, with or without a
call of the renderer, leaves the horizontal offset unchanged, and so does every
key handler; a key handler also leaves the raw content, the cached width, the
rendered line count and the key table unchanged, so that only the vertical
offset may differ. -/
theorem horizontal_offset_untouched (md : Renderer) (u : ui) (g : Gui) (h : Handler) :
    (u.layout md g).state.XOffset = u.XOffset ∧
    (u.render md g).state.XOffset = u.XOffset ∧
    (h.run u g).1.XOffset = u.XOffset ∧
    (h.run u g).1.raw = u.raw ∧
    (h.run u g).1.width = u.width ∧
    (h.run u g).1.lines = u.lines ∧
    (h.run u g).1 = { u with YOffset := (h.run u g).1.YOffset } := by
  have hf := handler_frame h u g
  refine ⟨(layout_frame md u g).2.1, rfl, ?_, ?_, ?_, ?_, hf⟩
  · rw [hf]
  · rw [hf]
  · rw [hf]
  · rw [hf]

/-- C17: every run of `ui.render` sets the rendered line count to the number
of line break bytes (byte 10) in the output of that renderer call, whatever
the count was before; the count is not negative, it is 0 exactly when the
output has no line break, and the bytes returned are the output of the
renderer unchanged. -/
theorem render_counts_line_breaks (md : Renderer) (u : ui) (g : Gui) (n : Int) :
    (({ u with lines := n } : ui).render md g).state.lines
      = ((md u.raw (g.maxX - 1 - padding) padding).count 10 : Nat) ∧
    (({ u with lines := n } : ui).render md g).rendered
      = md u.raw (g.maxX - 1 - padding) padding ∧
    0 ≤ (({ u with lines := n } : ui).render md g).state.lines ∧
    ((({ u with lines := n } : ui).render md g).state.lines = 0
      ↔ 10 ∉ md u.raw (g.maxX - 1 - padding) padding) := by
  have hl : (({ u with lines := n } : ui).render md g).state.lines
      = ((md u.raw (g.maxX - 1 - padding) padding).count 10 : Nat) := by
    simp only [ui.render]
    exact countLines_eq_count _
  refine ⟨hl, rfl, ?_, ?_⟩
  · rw [hl]; exact Int.natCast_nonneg _
  · rw [hl, Int.natCast_eq_zero, List.count_eq_zero]

/-! ## Key registration -/

/-- C14: the table of `newUi` has 15 bindings; `newUi` returns a `ui` if and
only if every binding of the table registers; in that case all 15 were
registered in table order and no error is returned; when a binding fails after
all bindings before it registered, `newUi` returns no `ui` and the error of
that binding, and has called `Register` on the bindings up to that one and on
none after it. -/
theorem newUi_registers_all_or_fails_fast (g : Gui) :
    bindingTable.length = 15 ∧
    ((newUi g).result.isSome ↔ ∀ kb ∈ bindingTable, kb.Register g = none) ∧
    ((∀ kb ∈ bindingTable, kb.Register g = none) →
      (newUi g).result = some { ui.zero with keybindings := bindingTable } ∧
      (newUi g).err = none ∧ (newUi g).attempted = bindingTable) ∧
    (∀ (pre : List keybinding) (kb : keybinding) (post : List keybinding) (e : GuiError),
      bindingTable = pre ++ kb :: post →
      (∀ x ∈ pre, x.Register g = none) → kb.Register g = some e →
      (newUi g).result = none ∧ (newUi g).err = some e ∧
      (newUi g).attempted = pre ++ [kb]) := by
  obtain ⟨hsome, herr, htried, hres⟩ := newUi_of_registerAll g
  refine ⟨rfl, hsome.trans (registerAll_none_iff g bindingTable), ?_, ?_⟩
  · intro hall
    have hreg := registerAll_ok g bindingTable hall
    refine ⟨?_, by rw [herr, hreg], by rw [htried, hreg]⟩
    rcases hres with hnone | hok
    · have h1 : (newUi g).result.isSome = true := hsome.mpr (by rw [hreg])
      rw [hnone] at h1
      exact absurd h1 (by simp)
    · exact hok
  · intro pre kb post e hsplit hpre hkb
    have hreg : registerAll g bindingTable = (pre ++ [kb], some e) := by
      rw [hsplit]; exact registerAll_fail g pre kb post e hpre hkb
    refine ⟨?_, by rw [herr, hreg], by rw [htried, hreg]⟩
    cases hr : (newUi g).result with
    | none => rfl
    | some u0 =>
      have h1 : (registerAll g bindingTable).2 = none := hsome.mp (by rw [hr]; rfl)
      rw [hreg] at h1
      exact absurd h1 (by simp)

/-- Witness of `newUi_registers_all_or_fails_fast`: on a terminal that refuses
the rune `k`, the third binding of the table, `newUi` returns no `ui` and that
error after trying three bindings. -/
theorem newUi_registers_all_or_fails_fast_witness :
    bindingTable = bindingTable.take 2
      ++ { viewName := renderView, key := Key.rune 'k', mod := Modifier.ModNone,
           handler := Handler.up } :: bindingTable.drop 3 ∧
    (∀ x ∈ bindingTable.take 2, x.Register refusingGui = none) ∧
    (newUi refusingGui).result = none ∧
    (newUi refusingGui).err = some (GuiError.other "key refused") ∧
    (newUi refusingGui).attempted = bindingTable.take 3 :=
  ⟨by decide, by decide,
   (newUi_registers_all_or_fails_fast refusingGui).2.2.2 (bindingTable.take 2)
     { viewName := renderView, key := Key.rune 'k', mod := Modifier.ModNone,
       handler := Handler.up }
     (bindingTable.drop 3) (GuiError.other "key refused") (by decide) (by decide) (by decide)⟩

/-- C16: for non-empty content, a terminal at least one column wide and a pass
the library accepts, the layout pass that follows `setContent` calls the
renderer, from any state and so from the state `newUi` returns; a second
`setContent` followed by a pass at the same width calls the renderer again. -/
theorem setContent_forces_render (md : Renderer) (u : ui) (g : Gui)
    (content again : List Byte)
    (hc : content ≠ []) (ha : again ≠ []) (hw : 1 ≤ g.maxX) (hg : g.accepts u = true) :
    (u.setContent content).width = -1 ∧
    ((u.setContent content).layout md g).calls ≠ [] ∧
    ((u.setContent content).layout md g).state.width = g.maxX ∧
    ((((u.setContent content).layout md g).state.setContent again).layout md g).calls ≠ [] ∧
    (∀ (g0 : Gui) (u0 : ui), (newUi g0).result = some u0 → g.accepts u0 = true →
      u0.width = -1 ∧ ((u0.setContent content).layout md g).calls ≠ []) := by
  have key : ∀ (v : ui) (c : List Byte), c ≠ [] → g.accepts v = true →
      ((v.setContent c).layout md g).calls ≠ [] := by
    intro v c hcne hv
    exact unset_cache_renders md (v.setContent c) g hcne rfl hw
      ((accepts_congr g v (v.setContent c) rfl rfl).trans hv)
  have hg1 : g.accepts (u.setContent content) = true :=
    (accepts_congr g u (u.setContent content) rfl rfl).trans hg
  obtain ⟨_, hx, hy, _⟩ := layout_frame md (u.setContent content) g
  refine ⟨rfl, key u content hc hg, ?_, ?_, ?_⟩
  · exact (layout_accepted md (u.setContent content) g hc hg1).2.2
  · exact key _ again ha ((accepts_congr g u _ hx hy).trans hg)
  · intro g0 u0 h0 hg0
    refine ⟨?_, key u0 content hc hg0⟩
    rcases (newUi_of_registerAll g0).2.2.2 with hnone | hok
    · rw [hnone] at h0; exact absurd h0 (by simp)
    · rw [hok] at h0
      have : u0 = { ui.zero with keybindings := bindingTable } := (Option.some.inj h0).symm
      rw [this]; rfl

/-- Witness of `setContent_forces_render`: the three line document on an 80 by
24 terminal is rendered on the first pass, and again after a second
`setContent` at the same width. -/
theorem setContent_forces_render_witness :
    shortDoc ≠ [] ∧ (1 : Int) ≤ (Gui.ofSize 80 24).maxX ∧
    (Gui.ofSize 80 24).accepts ui.zero = true ∧
    ((ui.zero.setContent shortDoc).layout echoRenderer (Gui.ofSize 80 24)).calls ≠ [] ∧
    ((((ui.zero.setContent shortDoc).layout echoRenderer (Gui.ofSize 80 24)).state.setContent
      shortDoc).layout echoRenderer (Gui.ofSize 80 24)).calls ≠ [] :=
  have h := setContent_forces_render echoRenderer ui.zero (Gui.ofSize 80 24) shortDoc shortDoc
    (by decide) (by decide) (by decide) (by decide)
  ⟨by decide, by decide, by decide, h.2.1, h.2.2.2.1⟩

/-! ## The bound without `pageBottom`, and `pageBottom` against it -/

/-- C18: for every line count and height at least 1, `down` and `pageDown`
give an offset in `[0, max(0, lineCount - height + 1)]` from any prior offset
`y`; `up`, `pageUp` and `pageTop` map an offset in that interval to one in it;
and every run of key handlers without `pageBottom` from an offset in the
interval ends in the interval, with the line count unchanged. -/
theorem bound_without_pageBottom (u : ui) (g : Gui) (hs : List Handler) (y : Int)
    (hh : 1 ≤ g.maxY) (hin : u.inRange g) (hno : Handler.pageBottom ∉ hs) :
    ((({ u with YOffset := y } : ui).down g).1.inRange g) ∧
    ((({ u with YOffset := y } : ui).pageDown g).1.inRange g) ∧
    (u.up g).1.inRange g ∧ (u.pageUp g).1.inRange g ∧ (u.pageTop g).1.inRange g ∧
    (runHandlers g u hs).1.inRange g ∧
    (0 ≤ (runHandlers g u hs).1.YOffset ∧
      (runHandlers g u hs).1.YOffset ≤ Max.max 0 (u.lines - g.maxY + 1)) := by
  have h0 : 0 ≤ g.maxY := by omega
  have hrun := runHandlers_keeps_range g h0 hs u hno hin
  have hlines : ∀ (l : List Handler) (v : ui), (runHandlers g v l).1.lines = v.lines := by
    intro l
    induction l with
    | nil => intro v; rfl
    | cons h l ih =>
      intro v
      have hl : (h.run v g).1.lines = v.lines := by rw [handler_frame h v g]
      rw [runHandlers]
      rcases hr : h.run v g with ⟨v1, _ | e⟩
      · rw [hr] at hl
        exact (ih v1).trans hl
      · rw [hr] at hl
        exact hl
  refine ⟨?_, ?_, ?_, ?_, ?_, hrun, ?_⟩
  · refine ⟨?_, ?_⟩
    · rw [down_YOffset]; omega
    · rw [down_YOffset]; simp only [ui.down, scrollMax]; omega
  · refine ⟨?_, ?_⟩
    · rw [pageDown_YOffset]; omega
    · rw [pageDown_YOffset]; simp only [ui.pageDown, scrollMax]; omega
  · exact handler_keeps_range Handler.up u g h0 (by decide) hin
  · exact handler_keeps_range Handler.pageUp u g h0 (by decide) hin
  · exact handler_keeps_range Handler.pageTop u g h0 (by decide) hin
  · have h2 := hrun
    unfold ui.inRange scrollMax at h2
    rw [hlines hs u] at h2
    exact h2

/-- Witness of `bound_without_pageBottom`: 50 lines at height 20, from offset
7, the keys `pageDown`, `pageDown`, `pageDown`, `up`, `pageUp`, `down` end at
offset 21, inside `[0, 31]`. -/
theorem bound_without_pageBottom_witness :
    (1 : Int) ≤ (Gui.ofSize 80 20).maxY ∧
    ({ ui.zero with lines := 50, YOffset := 7 } : ui).inRange (Gui.ofSize 80 20) ∧
    Handler.pageBottom ∉ [Handler.pageDown, Handler.pageDown, Handler.pageDown, Handler.up,
      Handler.pageUp, Handler.down] ∧
    (runHandlers (Gui.ofSize 80 20) { ui.zero with lines := 50, YOffset := 7 }
      [Handler.pageDown, Handler.pageDown, Handler.pageDown, Handler.up, Handler.pageUp,
        Handler.down]).1.YOffset = 21 ∧
    (runHandlers (Gui.ofSize 80 20) { ui.zero with lines := 50, YOffset := 7 }
      [Handler.pageDown, Handler.pageDown, Handler.pageDown, Handler.up, Handler.pageUp,
        Handler.down]).1.inRange (Gui.ofSize 80 20) :=
  ⟨by decide, by decide, by decide, by decide,
   (bound_without_pageBottom { ui.zero with lines := 50, YOffset := 7 } (Gui.ofSize 80 20)
      [Handler.pageDown, Handler.pageDown, Handler.pageDown, Handler.up, Handler.pageUp,
        Handler.down] 0 (by decide) (by decide) (by decide)).2.2.2.2.2.1⟩

/-- C19: for every line count and height at least 1, the offset `pageBottom`
leaves equals the scroll maximum `max(0, lineCount - height + 1)` if and only
if `lineCount ≥ 2 * height - 1`; when `lineCount < 2 * height - 1` it is
exactly the height, strictly above the scroll maximum, and a following `down`
brings the offset to the scroll maximum, which is a decrease. -/
theorem pageBottom_against_scrollMax (u : ui) (g : Gui) (hh : 1 ≤ g.maxY) :
    ((u.pageBottom g).1.YOffset = scrollMax u.lines g.maxY ↔ 2 * g.maxY - 1 ≤ u.lines) ∧
    (u.lines < 2 * g.maxY - 1 →
      (u.pageBottom g).1.YOffset = g.maxY ∧
      scrollMax u.lines g.maxY < (u.pageBottom g).1.YOffset ∧
      (((u.pageBottom g).1).down g).1.YOffset = scrollMax u.lines g.maxY ∧
      (((u.pageBottom g).1).down g).1.YOffset < (u.pageBottom g).1.YOffset) := by
  have hl : (u.pageBottom g).1.lines = u.lines := rfl
  refine ⟨?_, ?_⟩
  · rw [pageBottom_YOffset, scrollMax]; omega
  · intro hlt
    rw [down_YOffset, hl, pageBottom_YOffset, scrollMax]
    omega

/-- Witness of `pageBottom_against_scrollMax`: 3 lines at height 24, where
`pageBottom` leaves 24, the scroll maximum is 0, and `down` returns to 0. -/
theorem pageBottom_against_scrollMax_witness :
    (1 : Int) ≤ (Gui.ofSize 80 24).maxY ∧
    ({ ui.zero with lines := 3 } : ui).lines < 2 * (Gui.ofSize 80 24).maxY - 1 ∧
    (({ ui.zero with lines := 3 } : ui).pageBottom (Gui.ofSize 80 24)).1.YOffset = 24 ∧
    scrollMax 3 24 = 0 ∧
    (((({ ui.zero with lines := 3 } : ui).pageBottom (Gui.ofSize 80 24)).1).down
      (Gui.ofSize 80 24)).1.YOffset = scrollMax 3 24 :=
  have h := (pageBottom_against_scrollMax { ui.zero with lines := 3 } (Gui.ofSize 80 24)
    (by decide)).2 (by decide)
  ⟨by decide, by decide, h.1, by decide, h.2.2.1⟩

/-- C20: for every state, renderer and terminal, a second layout pass that
gets the same answers from the library leaves the state of the first pass
unchanged and does not call the renderer; the same holds for a second pass at
the same width with any height and any library answers after a first pass on
which `SetView` did not fail; and a pass at the cached width, or on empty
content, changes no field of the state. -/
theorem layout_idempotent (md : Renderer) (u : ui) (g g2 : Gui) :
    ((u.layout md g).state.layout md g).state = (u.layout md g).state ∧
    ((u.layout md g).state.layout md g).calls = [] ∧
    (fatal (g.SetView renderView u.XOffset (-u.YOffset) g.maxX g.maxY) = true ∨
      (((u.layout md g).state.layout md { g2 with maxX := g.maxX }).state
          = (u.layout md g).state ∧
        ((u.layout md g).state.layout md { g2 with maxX := g.maxX }).calls = [])) ∧
    (({ u with width := g.maxX } : ui).layout md g).state = { u with width := g.maxX } ∧
    (({ u with width := g.maxX } : ui).layout md g).calls = [] ∧
    (({ u with raw := [] } : ui).layout md g).state = { u with raw := [] } ∧
    (({ u with raw := [] } : ui).layout md g).calls = [] := by
  have hsame : ∀ (v : ui) (p : Gui), v.width = p.maxX →
      (v.layout md p).state = v ∧ (v.layout md p).calls = [] := by
    intro v p hv
    unfold ui.layout
    simp only
    split_ifs with h1 h2
    · exact ⟨rfl, rfl⟩
    · exact absurd hv h2.2
    · exact ⟨rfl, rfl⟩
  have hempty : ∀ (v : ui) (p : Gui), v.raw = [] →
      (v.layout md p).state = v ∧ (v.layout md p).calls = [] := by
    intro v p hv
    unfold ui.layout
    simp only
    split_ifs with h1 h2
    · exact ⟨rfl, rfl⟩
    · rw [hv] at h2; exact absurd h2.1 (by simp)
    · exact ⟨rfl, rfl⟩
  have hfatal : ∀ (v : ui) (p : Gui),
      fatal (p.SetView renderView v.XOffset (-v.YOffset) p.maxX p.maxY) = true →
      (v.layout md p).state = v ∧ (v.layout md p).calls = [] := by
    intro v p hv
    unfold ui.layout
    simp only [hv, if_true, and_self]
  have hafter : fatal (g.SetView renderView u.XOffset (-u.YOffset) g.maxX g.maxY) = false →
      (u.layout md g).state.raw = [] ∨ (u.layout md g).state.width = g.maxX := by
    intro hnf
    unfold ui.layout ui.render
    simp only [hnf]
    by_cases hr : u.raw = []
    · left; simp [hr]
    · by_cases hwd : u.width = g.maxX
      · right; simp [hwd]
      · right
        have hlen : 0 < u.raw.length := List.length_pos.mpr hr
        simp [hwd, hlen]
  obtain ⟨_, hx, hy, _⟩ := layout_frame md u g
  have hsecond : ∀ p : Gui, p.maxX = g.maxX →
      fatal (g.SetView renderView u.XOffset (-u.YOffset) g.maxX g.maxY) = false →
      ((u.layout md g).state.layout md p).state = (u.layout md g).state ∧
      ((u.layout md g).state.layout md p).calls = [] := by
    intro p hp hnf
    rcases hafter hnf with he | hwd
    · exact hempty _ p he
    · exact hsame _ p (hwd.trans hp.symm)
  have hboth : ((u.layout md g).state.layout md g).state = (u.layout md g).state ∧
      ((u.layout md g).state.layout md g).calls = [] := by
    cases hf : fatal (g.SetView renderView u.XOffset (-u.YOffset) g.maxX g.maxY) with
    | false => exact hsecond g rfl hf
    | true =>
      have h1 := hfatal u g hf
      rw [h1.1]
      exact h1
  refine ⟨hboth.1, hboth.2, ?_, (hsame _ g rfl).1, (hsame _ g rfl).2,
    (hempty _ g rfl).1, (hempty _ g rfl).2⟩
  cases hf : fatal (g.SetView renderView u.XOffset (-u.YOffset) g.maxX g.maxY) with
  | false => right; exact hsecond { g2 with maxX := g.maxX } rfl hf
  | true => left; rfl

end Mdr
